import Mathlib

/-!
Shallow embedding of the composition-and-sampling core of
`src/packgen/blend.py` (packgen repository), together with theorems
settling the specification claims about it.

Real-valued quantities of the Python code (floats, `np.sin`) are modelled
by exact real arithmetic over `ℝ`; the pure cumulative-scan sampler and
the placement loop are additionally kept polymorphic over a linear ordered
field so that they can be executed over `ℚ` on concrete inputs.
-/

namespace Packgen

/-- The parameter set loaded from the JSON parameters file (the fields of
`PARAMETERS` that the composition/sampling core reads). -/
structure Params (α : Type) where
  density_A : α
  density_B : α
  r_A : α
  r_B : α
  thickness_A : α
  thickness_B : α
  num_sides : ℕ
  mass_fraction_B : α
  seed : α
  num_cubes_x : ℕ
  num_cubes_y : ℕ
  num_cubes_z : ℕ
  distance : α
  scale : α

/-- `volume_prism(sides, radius, height)` from blend.py:
`1 / 2 * sides * np.square(radius) * np.sin(2 * np.pi / sides) * height`. -/
noncomputable def volume_prism (sides radius height : ℝ) : ℝ :=
  1 / 2 * sides * radius ^ 2 * Real.sin (2 * Real.pi / sides) * height

/-- The ratio `beta = rho_B * V_B / (rho_A * V_A)` computed inside
`num_B_particles` in blend.py. -/
noncomputable def packBeta (p : Params ℝ) : ℝ :=
  p.density_B * volume_prism p.num_sides p.r_B p.thickness_B /
    (p.density_A * volume_prism p.num_sides p.r_A p.thickness_A)

/-- The ratio `alpha = 1 / beta * (x_B / (1 - x_B))` computed inside
`num_B_particles` in blend.py. -/
noncomputable def packAlpha (p : Params ℝ) : ℝ :=
  1 / packBeta p * (p.mass_fraction_B / (1 - p.mass_fraction_B))

/-- `num_B_particles(parameters, num_particles_total)` from blend.py:
`math.ceil(alpha / (1 + alpha) * num_particles_total)`. -/
noncomputable def num_B_particles (p : Params ℝ) (num_particles_total : ℕ) : ℤ :=
  ⌈packAlpha p / (1 + packAlpha p) * num_particles_total⌉

/-- `num_B_particles` with Python exception semantics made explicit: the
subexpression `x_B / (1 - x_B)` is evaluated on Python floats, so a
mass fraction of exactly 1 raises `ZeroDivisionError` (modelled as `none`);
every other input returns the computed count.  No other division in the
function can raise (the numpy divisions produce inf/nan silently). -/
noncomputable def num_B_particles_checked (p : Params ℝ) (num_particles_total : ℕ) :
    Option ℤ :=
  if 1 - p.mass_fraction_B = 0 then none
  else some (num_B_particles p num_particles_total)

/-- A parameter set with both species identical: unit densities, radii and
thicknesses, 6 sides, mass fraction 1/2, and a 1 x 1 x 10 grid. -/
noncomputable def exampleParams : Params ℝ :=
  ⟨1, 1, 1, 1, 1, 1, 6, 1 / 2, 1, 1, 1, 10, 1, 1⟩

variable {α : Type} [LinearOrderedField α]
  [DecidableRel (fun a b : α => a < b)]

/-- The index-scanning loop of `decide_cube` in blend.py: starting from
`LastI = -1`, for each `i in range(len(number_fractions))` set `LastI = i`
whenever the drawn number is strictly greater than `cum_sums[i]`. -/
def lastHit (ThisRandomNumber : α) (cum_sums : List α) (n : ℕ) : ℤ :=
  (List.range n).foldl
    (fun LastI i => if cum_sums.getD i 0 < ThisRandomNumber then (i : ℤ) else LastI)
    (-1)

/-- `decide_cube(n_B, n_A, number_fractions, cum_sums)` from blend.py, with
the single `random.uniform(0.0, 1.0)` draw passed in explicitly as
`ThisRandomNumber`; returns `LastI + 1`.  The `n_B`/`n_A` arguments are
unused, exactly as in the source. -/
def decide_cube (n_B n_A : ℤ) (number_fractions cum_sums : List α)
    (ThisRandomNumber : α) : ℤ :=
  lastHit ThisRandomNumber cum_sums number_fractions.length + 1

variable {σ : Type}

/-- A seedable pseudo-random source, modelling Python's `random` module:
`next` is one `random.random()` step (a value in [0,1] and the successor
state), `seedInit` is `random.seed(seed)`. -/
structure RandGen (σ α : Type) where
  next : σ → α × σ
  seedInit : α → σ

/-- `random.uniform(a, b)`: `a + (b - a) * random.random()`. -/
def uniform (g : RandGen σ α) (a b : α) (s : σ) : α × σ :=
  let r := g.next s
  (a + (b - a) * r.1, r.2)

/-- The index convention `I_B = 1` for species B in `main`. -/
def I_B : ℤ := 1

/-- The literal upper bound `6.283185` of the three `random.uniform(0, 6.283185)`
rotation draws in `main`. -/
def rotationBound : α := 6283185 / 1000000

/-- What `main` produces for one placed slot: the drawn species index and
the three rotation angles assigned to `cube.rotation_euler`. -/
structure SlotOut (α : Type) where
  species : ℤ
  rot1 : α
  rot2 : α
  rot3 : α

/-- One iteration of the innermost placement loop of `main`: draw the species
via `decide_cube` (one `uniform(0,1)` draw), update the running counts
`n_generated_cubes_B` / `n_generated_cubed_A`, then make the three
`uniform(0, 6.283185)` rotation draws. -/
def placeSlot (g : RandGen σ α) (number_fractions cum_sums : List α)
    (n_generated_cubes_B n_generated_cubed_A : ℤ) (s : σ) :
    SlotOut α × ℤ × ℤ × σ :=
  let d := uniform g 0 1 s
  let LastI := decide_cube n_generated_cubes_B n_generated_cubed_A
    number_fractions cum_sums d.1
  let nB := if LastI = I_B then n_generated_cubes_B + 1 else n_generated_cubes_B
  let nA := if LastI = I_B then n_generated_cubed_A else n_generated_cubed_A + 1
  let r1 := uniform g 0 rotationBound d.2
  let r2 := uniform g 0 rotationBound r1.2
  let r3 := uniform g 0 rotationBound r2.2
  (⟨LastI, r1.1, r2.1, r3.1⟩, nB, nA, r3.2)

/-- The triple-nested placement loop of `main`, over an explicit list of grid
cells, threading the random state and the two running counts. -/
def placeLoop (g : RandGen σ α) (number_fractions cum_sums : List α) :
    List (ℕ × ℕ × ℕ) → ℤ → ℤ → σ → List (SlotOut α) × ℤ × ℤ × σ
  | [], nB, nA, s => ([], nB, nA, s)
  | _ :: cells, nB, nA, s =>
    let r := placeSlot g number_fractions cum_sums nB nA s
    let rest := placeLoop g number_fractions cum_sums cells r.2.1 r.2.2.1 r.2.2.2
    (r.1 :: rest.1, rest.2)

/-- The cell visit order of `main`'s placement loop:
`for x in range(num_cubes_x): for y in range(num_cubes_y): for z in range(num_cubes_z)`. -/
def gridCells (nx ny nz : ℕ) : List (ℕ × ℕ × ℕ) :=
  (List.range nx).flatMap fun x =>
    (List.range ny).flatMap fun y =>
      (List.range nz).map fun z => (x, y, z)

/-- Lexicographic order on grid cells with the x coordinate most significant
and the z coordinate least significant. -/
def lexLt (a b : ℕ × ℕ × ℕ) : Prop :=
  a.1 < b.1 ∨ (a.1 = b.1 ∧ (a.2.1 < b.2.1 ∨ (a.2.1 = b.2.1 ∧ a.2.2 < b.2.2)))

/-- `num_cubes_total = num_cubes_x * num_cubes_y * num_cubes_z` in `main`. -/
def numCubesTotal (p : Params α) : ℕ :=
  p.num_cubes_x * p.num_cubes_y * p.num_cubes_z

/-- `number_fraction_B = num_cubes_B / num_cubes_total` in `main`. -/
noncomputable def number_fraction_B (p : Params ℝ) : ℝ :=
  (num_B_particles p (numCubesTotal p) : ℝ) / (numCubesTotal p)

/-- The initial `number_fractions` array of `main`:
`[1.0 - number_fraction_B, number_fraction_B]`. -/
noncomputable def number_fractions (p : Params ℝ) : List ℝ :=
  [1 - number_fraction_B p, number_fraction_B p]

/-- The in-place normalization loop of `main`: every entry is divided by
`the_sum = sum(number_fractions)`. -/
noncomputable def normalized_number_fractions (p : Params ℝ) : List ℝ :=
  (number_fractions p).map fun v => v / (number_fractions p).sum

/-- The cumulative-sum loop of `main`: `cum_sum += number_fractions[i];
cum_sums[i] = cum_sum`, starting from the accumulator value `acc`. -/
def cumSumAux : List α → α → List α
  | [], _ => []
  | v :: vs, acc => (acc + v) :: cumSumAux vs (acc + v)

/-- The `cum_sums` array of `main`, computed from the normalized fractions. -/
noncomputable def cum_sums (p : Params ℝ) : List ℝ :=
  cumSumAux (normalized_number_fractions p) 0

/-- The composition-and-sampling part of `main`: seed the random source from
the parameters, then run the placement loop over the grid cells with the
normalized number fractions and their cumulative sums, starting from zero
counts. -/
noncomputable def mainRun (g : RandGen σ ℝ) (p : Params ℝ) :
    List (SlotOut ℝ) × ℤ × ℤ × σ :=
  placeLoop g (normalized_number_fractions p) (cum_sums p)
    (gridCells p.num_cubes_x p.num_cubes_y p.num_cubes_z) 0 0 (g.seedInit p.seed)

/-- A parameter set with mass fraction exactly 0 (otherwise as `exampleParams`). -/
noncomputable def exampleParamsX0 : Params ℝ :=
  ⟨1, 1, 1, 1, 1, 1, 6, 0, 1, 1, 1, 10, 1, 1⟩

/-- A parameter set with mass fraction exactly 1 (otherwise as `exampleParams`). -/
noncomputable def exampleParamsX1 : Params ℝ :=
  ⟨1, 1, 1, 1, 1, 1, 6, 1, 1, 1, 1, 10, 1, 1⟩

/-- A concrete seedable source for witnesses: every draw is 1/2 and the state
is a step counter. -/
noncomputable def halfGen : RandGen ℕ ℝ :=
  ⟨fun s => (1 / 2, s + 1), fun _ => 0⟩

/-- The property the spec asserts of one placed slot's rotation, with the
upper bound amended to the literal `6.283185` of the source: the three
rotation components are three successive `uniform(0, 6.283185)` draws made
after the species draw, and each lies in `[0, 6.283185]` whenever the raw
source draws lie in `[0, 1]`. -/
def rotationsSpec {σ : Type} (g : RandGen σ ℝ) (fracs cums : List ℝ)
    (nB nA : ℤ) (s : σ) : Prop :=
  (placeSlot g fracs cums nB nA s).1.rot1 =
      (uniform g 0 rotationBound (uniform g 0 1 s).2).1 ∧
  (placeSlot g fracs cums nB nA s).1.rot2 =
      (uniform g 0 rotationBound
        (uniform g 0 rotationBound (uniform g 0 1 s).2).2).1 ∧
  (placeSlot g fracs cums nB nA s).1.rot3 =
      (uniform g 0 rotationBound (uniform g 0 rotationBound
        (uniform g 0 rotationBound (uniform g 0 1 s).2).2).2).1 ∧
  rotationBound = (6283185 / 1000000 : ℝ) ∧
  (0 ≤ (placeSlot g fracs cums nB nA s).1.rot1 ∧
    (placeSlot g fracs cums nB nA s).1.rot1 ≤ 6283185 / 1000000) ∧
  (0 ≤ (placeSlot g fracs cums nB nA s).1.rot2 ∧
    (placeSlot g fracs cums nB nA s).1.rot2 ≤ 6283185 / 1000000) ∧
  (0 ≤ (placeSlot g fracs cums nB nA s).1.rot3 ∧
    (placeSlot g fracs cums nB nA s).1.rot3 ≤ 6283185 / 1000000)

lemma volume_prism_pos {sides radius height : ℝ} (hs : 3 ≤ sides)
    (hr : 0 < radius) (hh : 0 < height) : 0 < volume_prism sides radius height := by
  have hπ := Real.pi_pos
  have hspos : (0 : ℝ) < sides := by linarith
  have harg0 : 0 < 2 * Real.pi / sides := by positivity
  have harg1 : 2 * Real.pi / sides < Real.pi := by
    rw [div_lt_iff₀ hspos]
    nlinarith
  have hsin : 0 < Real.sin (2 * Real.pi / sides) :=
    Real.sin_pos_of_pos_of_lt_pi harg0 harg1
  unfold volume_prism
  positivity

lemma packBeta_pos {p : Params ℝ} (hρA : 0 < p.density_A) (hρB : 0 < p.density_B)
    (hrA : 0 < p.r_A) (hrB : 0 < p.r_B) (hhA : 0 < p.thickness_A)
    (hhB : 0 < p.thickness_B) (hs : 3 ≤ p.num_sides) : 0 < packBeta p := by
  have h3 : (3 : ℝ) ≤ (p.num_sides : ℝ) := by exact_mod_cast hs
  have hVA := volume_prism_pos h3 hrA hhA
  have hVB := volume_prism_pos h3 hrB hhB
  unfold packBeta
  positivity

lemma packAlpha_pos {p : Params ℝ} (hρA : 0 < p.density_A) (hρB : 0 < p.density_B)
    (hrA : 0 < p.r_A) (hrB : 0 < p.r_B) (hhA : 0 < p.thickness_A)
    (hhB : 0 < p.thickness_B) (hs : 3 ≤ p.num_sides)
    (hx0 : 0 < p.mass_fraction_B) (hx1 : p.mass_fraction_B < 1) :
    0 < packAlpha p := by
  have hβ := packBeta_pos hρA hρB hrA hrB hhA hhB hs
  have h1x : 0 < 1 - p.mass_fraction_B := by linarith
  unfold packAlpha
  positivity

lemma volume_prism_example : volume_prism 6 1 1 = 3 * (Real.sqrt 3 / 2) := by
  unfold volume_prism
  rw [show (2 * Real.pi / 6 : ℝ) = Real.pi / 3 by ring, Real.sin_pi_div_three]
  ring

lemma packAlpha_example : packAlpha exampleParams = 1 := by
  have hV : volume_prism 6 1 1 = 3 * (Real.sqrt 3 / 2) := volume_prism_example
  have h3 : (0 : ℝ) < Real.sqrt 3 := Real.sqrt_pos.mpr (by norm_num)
  have hVne : volume_prism 6 1 1 ≠ 0 := by rw [hV]; positivity
  have hβ : packBeta exampleParams = 1 := by
    unfold packBeta exampleParams
    simp only
    push_cast
    rw [one_mul, div_self hVne]
  unfold packAlpha
  rw [hβ]
  norm_num [exampleParams]

lemma num_B_particles_example : num_B_particles exampleParams 10 = 5 := by
  unfold num_B_particles
  rw [packAlpha_example]
  norm_num

lemma lastHit_succ (u : α) (cums : List α) (n : ℕ) :
    lastHit u cums (n + 1) =
      if cums.getD n 0 < u then (n : ℤ) else lastHit u cums n := by
  unfold lastHit
  rw [List.range_succ, List.foldl_append]
  simp

lemma lastHit_of_none (u : α) (cums : List α) (n : ℕ)
    (h : ∀ i < n, ¬ cums.getD i 0 < u) : lastHit u cums n = -1 := by
  induction n with
  | zero => rfl
  | succ m ih =>
    rw [lastHit_succ, if_neg (h m (Nat.lt_succ_self m))]
    exact ih fun i hi => h i (Nat.lt_succ_of_lt hi)

lemma lastHit_of_last (u : α) (cums : List α) (n k : ℕ) (hk : k < n)
    (hhit : cums.getD k 0 < u)
    (hafter : ∀ j < n, k < j → ¬ cums.getD j 0 < u) :
    lastHit u cums n = k := by
  induction n with
  | zero => omega
  | succ m ih =>
    rw [lastHit_succ]
    rcases Nat.lt_succ_iff_lt_or_eq.mp hk with hlt | heq
    · rw [if_neg (hafter m (Nat.lt_succ_self m) hlt)]
      exact ih hlt fun j hj hkj => hafter j (Nat.lt_succ_of_lt hj) hkj
    · subst heq
      rw [if_pos hhit]

lemma lastHit_ge (u : α) (cums : List α) (n : ℕ) : -1 ≤ lastHit u cums n := by
  induction n with
  | zero => simp [lastHit]
  | succ m ih =>
    rw [lastHit_succ]
    split
    · omega
    · exact ih

lemma lastHit_lt (u : α) (cums : List α) (n : ℕ) : lastHit u cums n < n := by
  induction n with
  | zero => simp [lastHit]
  | succ m ih =>
    rw [lastHit_succ]
    split
    · omega
    · omega

lemma placeSlot_counts (g : RandGen σ α) (fracs cums : List α) (nB nA : ℤ)
    (s : σ) :
    (placeSlot g fracs cums nB nA s).2.1 + (placeSlot g fracs cums nB nA s).2.2.1 =
      nB + nA + 1 := by
  unfold placeSlot
  dsimp only
  split <;> ring

lemma placeLoop_length (g : RandGen σ α) (fracs cums : List α) :
    ∀ (cells : List (ℕ × ℕ × ℕ)) (nB nA : ℤ) (s : σ),
      (placeLoop g fracs cums cells nB nA s).1.length = cells.length := by
  intro cells
  induction cells with
  | nil => intro nB nA s; rfl
  | cons c cells ih =>
    intro nB nA s
    simp only [placeLoop, List.length_cons, ih]

lemma placeLoop_counts (g : RandGen σ α) (fracs cums : List α) :
    ∀ (cells : List (ℕ × ℕ × ℕ)) (nB nA : ℤ) (s : σ),
      (placeLoop g fracs cums cells nB nA s).2.1 +
        (placeLoop g fracs cums cells nB nA s).2.2.1 = nB + nA + cells.length := by
  intro cells
  induction cells with
  | nil => intro nB nA s; simp [placeLoop]
  | cons c cells ih =>
    intro nB nA s
    simp only [placeLoop, List.length_cons]
    rw [ih]
    have h := placeSlot_counts g fracs cums nB nA s
    push_cast
    omega

lemma placeLoop_eq_of_length (g : RandGen σ α) (fracs cums : List α) :
    ∀ (cells₁ cells₂ : List (ℕ × ℕ × ℕ)), cells₁.length = cells₂.length →
      ∀ (nB nA : ℤ) (s : σ),
        placeLoop g fracs cums cells₁ nB nA s = placeLoop g fracs cums cells₂ nB nA s := by
  intro cells₁
  induction cells₁ with
  | nil =>
    intro cells₂ hlen nB nA s
    rw [List.length_nil, eq_comm, List.length_eq_zero] at hlen
    rw [hlen]
  | cons c cells ih =>
    intro cells₂ hlen nB nA s
    match cells₂ with
    | [] => simp at hlen
    | c' :: cells' =>
      simp only [List.length_cons, Nat.add_right_cancel_iff] at hlen
      simp only [placeLoop, ih cells' hlen]

lemma gridCells_length (nx ny nz : ℕ) :
    (gridCells nx ny nz).length = nx * ny * nz := by
  unfold gridCells
  simp only [List.length_flatMap, Function.comp_def, List.length_map,
    List.length_range, List.map_const', List.sum_replicate, smul_eq_mul]
  ring

lemma gridCells_mem (nx ny nz : ℕ) (c : ℕ × ℕ × ℕ) :
    c ∈ gridCells nx ny nz ↔ c.1 < nx ∧ c.2.1 < ny ∧ c.2.2 < nz := by
  obtain ⟨x, y, z⟩ := c
  simp only [gridCells, List.mem_flatMap, List.mem_map, List.mem_range,
    Prod.mk.injEq]
  constructor
  · rintro ⟨x', hx', y', hy', z', hz', rfl, rfl, rfl⟩
    exact ⟨hx', hy', hz'⟩
  · rintro ⟨hx, hy, hz⟩
    exact ⟨x, hx, y, hy, z, hz, rfl, rfl, rfl⟩

lemma gridCells_pairwise (nx ny nz : ℕ) :
    (gridCells nx ny nz).Pairwise lexLt := by
  unfold gridCells
  rw [List.flatMap_def, List.pairwise_flatten]
  constructor
  · intro s hs
    simp only [List.mem_map] at hs
    obtain ⟨x, _, rfl⟩ := hs
    rw [List.flatMap_def, List.pairwise_flatten]
    constructor
    · intro t ht
      simp only [List.mem_map] at ht
      obtain ⟨y, _, rfl⟩ := ht
      rw [List.pairwise_map]
      refine (List.pairwise_lt_range nz).imp ?_
      intro a b hab
      exact Or.inr ⟨rfl, Or.inr ⟨rfl, hab⟩⟩
    · rw [List.pairwise_map]
      refine (List.pairwise_lt_range ny).imp ?_
      intro y y' hyy a ha b hb
      simp only [List.mem_map, List.mem_range] at ha hb
      obtain ⟨z, _, rfl⟩ := ha
      obtain ⟨z', _, rfl⟩ := hb
      exact Or.inr ⟨rfl, Or.inl hyy⟩
  · rw [List.pairwise_map]
    refine (List.pairwise_lt_range nx).imp ?_
    intro x x' hxx a ha b hb
    simp only [List.mem_flatMap, List.mem_map, List.mem_range] at ha hb
    obtain ⟨y, _, z, _, rfl⟩ := ha
    obtain ⟨y', _, z', _, rfl⟩ := hb
    exact Or.inl hxx

lemma ratio_pos {a : ℝ} (ha : 0 < a) : 0 < a / (1 + a) := by positivity

lemma ratio_le_one {a : ℝ} (ha : 0 < a) : a / (1 + a) ≤ 1 := by
  rw [div_le_one (by linarith)]
  linarith

lemma num_B_particles_pos {p : Params ℝ} (hα : 0 < packAlpha p) {T : ℕ}
    (hT : 1 ≤ T) : 0 < num_B_particles p T := by
  have hTpos : (0 : ℝ) < T := by exact_mod_cast hT
  unfold num_B_particles
  rw [Int.ceil_pos]
  exact mul_pos (ratio_pos hα) hTpos

lemma num_B_particles_le {p : Params ℝ} (hα : 0 < packAlpha p) (T : ℕ) :
    num_B_particles p T ≤ T := by
  unfold num_B_particles
  rw [Int.ceil_le]
  push_cast
  calc packAlpha p / (1 + packAlpha p) * T ≤ 1 * T := by
        apply mul_le_mul_of_nonneg_right (ratio_le_one hα) (by positivity)
    _ = T := one_mul _

lemma number_fraction_B_nonneg {p : Params ℝ} (hα : 0 < packAlpha p)
    (hT : 1 ≤ numCubesTotal p) : 0 ≤ number_fraction_B p := by
  have h := num_B_particles_pos hα hT
  have hTpos : (0 : ℝ) < numCubesTotal p := by exact_mod_cast hT
  unfold number_fraction_B
  positivity

lemma number_fraction_B_le_one {p : Params ℝ} (hα : 0 < packAlpha p)
    (hT : 1 ≤ numCubesTotal p) : number_fraction_B p ≤ 1 := by
  have h := num_B_particles_le hα (numCubesTotal p)
  have hTpos : (0 : ℝ) < numCubesTotal p := by exact_mod_cast hT
  unfold number_fraction_B
  rw [div_le_one hTpos]
  exact_mod_cast h

lemma number_fractions_sum (p : Params ℝ) : (number_fractions p).sum = 1 := by
  simp [number_fractions]

lemma normalized_number_fractions_eq (p : Params ℝ) :
    normalized_number_fractions p =
      [1 - number_fraction_B p, number_fraction_B p] := by
  unfold normalized_number_fractions
  rw [number_fractions_sum]
  simp [number_fractions]

lemma cum_sums_eq (p : Params ℝ) :
    cum_sums p = [1 - number_fraction_B p, 1] := by
  unfold cum_sums
  rw [normalized_number_fractions_eq]
  simp [cumSumAux]

lemma volume_prism_two (radius height : ℝ) : volume_prism 2 radius height = 0 := by
  unfold volume_prism
  rw [show (2 * Real.pi / 2 : ℝ) = Real.pi by ring, Real.sin_pi]
  ring

lemma checked_none_of_x1 (p : Params ℝ) (T : ℕ) (hx : p.mass_fraction_B = 1) :
    num_B_particles_checked p T = none := by
  unfold num_B_particles_checked
  rw [hx]
  simp

lemma checked_some_zero_of_x0 (p : Params ℝ) (T : ℕ) (hx : p.mass_fraction_B = 0) :
    num_B_particles_checked p T = some 0 := by
  have hα : packAlpha p = 0 := by
    unfold packAlpha
    rw [hx]
    simp
  unfold num_B_particles_checked
  rw [if_neg (by rw [hx]; norm_num)]
  unfold num_B_particles
  rw [hα]
  norm_num

/-- C1: `num_B_particles` returns `ceil(alpha / (1 + alpha) * T)` with
`beta = rho_B * V_B / (rho_A * V_A)` and `alpha = 1 / beta * (x_B / (1 - x_B))`;
under positive densities and geometry, `num_sides >= 3`, `x_B` in `(0,1)` and
`T >= 1` the result is at least 1; and for equal densities, identical
geometries, `x_B = 1/2` and `T = 10` the result is 5. -/
theorem claim_C1 (p : Params ℝ) (T : ℕ)
    (hρA : 0 < p.density_A) (hρB : 0 < p.density_B)
    (hrA : 0 < p.r_A) (hrB : 0 < p.r_B)
    (hhA : 0 < p.thickness_A) (hhB : 0 < p.thickness_B)
    (hs : 3 ≤ p.num_sides)
    (hx0 : 0 < p.mass_fraction_B) (hx1 : p.mass_fraction_B < 1)
    (hT : 1 ≤ T) :
    num_B_particles p T =
      ⌈1 / (p.density_B * volume_prism p.num_sides p.r_B p.thickness_B /
            (p.density_A * volume_prism p.num_sides p.r_A p.thickness_A)) *
          (p.mass_fraction_B / (1 - p.mass_fraction_B)) /
        (1 + 1 / (p.density_B * volume_prism p.num_sides p.r_B p.thickness_B /
            (p.density_A * volume_prism p.num_sides p.r_A p.thickness_A)) *
          (p.mass_fraction_B / (1 - p.mass_fraction_B))) * T⌉ ∧
    1 ≤ num_B_particles p T ∧
    num_B_particles exampleParams 10 = 5 := by
  have hα := packAlpha_pos hρA hρB hrA hrB hhA hhB hs hx0 hx1
  refine ⟨rfl, ?_, num_B_particles_example⟩
  have h := num_B_particles_pos hα hT
  omega

/-- C1 witness: the theorem applied to the identical-species parameter set
with total slot count 10. -/
theorem claim_C1_witness :
    num_B_particles exampleParams 10 =
      ⌈1 / (exampleParams.density_B *
            volume_prism exampleParams.num_sides exampleParams.r_B
              exampleParams.thickness_B /
            (exampleParams.density_A *
              volume_prism exampleParams.num_sides exampleParams.r_A
                exampleParams.thickness_A)) *
          (exampleParams.mass_fraction_B / (1 - exampleParams.mass_fraction_B)) /
        (1 + 1 / (exampleParams.density_B *
            volume_prism exampleParams.num_sides exampleParams.r_B
              exampleParams.thickness_B /
            (exampleParams.density_A *
              volume_prism exampleParams.num_sides exampleParams.r_A
                exampleParams.thickness_A)) *
          (exampleParams.mass_fraction_B / (1 - exampleParams.mass_fraction_B))) *
        10⌉ ∧
    1 ≤ num_B_particles exampleParams 10 ∧
    num_B_particles exampleParams 10 = 5 :=
  claim_C1 exampleParams 10 (by norm_num [exampleParams]) (by norm_num [exampleParams])
    (by norm_num [exampleParams]) (by norm_num [exampleParams])
    (by norm_num [exampleParams]) (by norm_num [exampleParams])
    (by norm_num [exampleParams]) (by norm_num [exampleParams])
    (by norm_num [exampleParams]) (by norm_num)

/-- C6: `volume_prism` equals `1/2 * sides * radius^2 * sin(2*pi/sides) * height`,
and at sides 6, radius 0.1, height 0.2 its value is 0.005196 up to 1e-6. -/
theorem claim_C6 (sides radius height : ℝ) (hs : 3 ≤ sides) (hr : 0 < radius)
    (hh : 0 < height) :
    volume_prism sides radius height =
      1 / 2 * sides * radius ^ 2 * Real.sin (2 * Real.pi / sides) * height ∧
    |volume_prism 6 (1 / 10) (2 / 10) - 5196 / 1000000| < 1 / 1000000 := by
  refine ⟨rfl, ?_⟩
  have hvol : volume_prism 6 (1 / 10) (2 / 10) = 3 * Real.sqrt 3 / 1000 := by
    unfold volume_prism
    rw [show (2 * Real.pi / 6 : ℝ) = Real.pi / 3 by ring, Real.sin_pi_div_three]
    ring
  rw [hvol]
  have hsq : Real.sqrt 3 ^ 2 = 3 := Real.sq_sqrt (by norm_num)
  have hnn : (0 : ℝ) ≤ Real.sqrt 3 := Real.sqrt_nonneg 3
  rw [abs_lt]
  constructor <;> nlinarith

/-- C6 witness: the theorem applied at sides 6, radius 1/10, height 2/10. -/
theorem claim_C6_witness :
    volume_prism 6 (1 / 10) (2 / 10) =
      1 / 2 * 6 * (1 / 10 : ℝ) ^ 2 * Real.sin (2 * Real.pi / 6) * (2 / 10) ∧
    |volume_prism 6 (1 / 10) (2 / 10) - 5196 / 1000000| < 1 / 1000000 :=
  claim_C6 6 (1 / 10) (2 / 10) (by norm_num) (by norm_num) (by norm_num)

/-- C7 counterexample: at mass fraction exactly 0 the computation does not
fail; it silently returns the count 0 (the claim asserts an InvalidComposition
error is raised for x_B = 0). -/
theorem claim_C7_counterexample :
    num_B_particles_checked exampleParamsX0 10 = some 0 :=
  checked_some_zero_of_x0 exampleParamsX0 10 rfl

/-- C7 (amended): at mass fraction exactly 1 the computation fails (a Python
`ZeroDivisionError` from `x_B / (1 - x_B)`, not a dedicated InvalidComposition
error, and only when `num_B_particles` is reached); at mass fraction exactly 0
no error is raised and the count 0 is returned silently. -/
theorem claim_C7 (p : Params ℝ) (T : ℕ) :
    (p.mass_fraction_B = 1 → num_B_particles_checked p T = none) ∧
    (p.mass_fraction_B = 0 → num_B_particles_checked p T = some 0) :=
  ⟨fun hx => checked_none_of_x1 p T hx, fun hx => checked_some_zero_of_x0 p T hx⟩

/-- C7 witness: the theorem applied at the boundary parameter sets. -/
theorem claim_C7_witness :
    num_B_particles_checked exampleParamsX1 10 = none ∧
    num_B_particles_checked exampleParamsX0 10 = some 0 :=
  ⟨(claim_C7 exampleParamsX1 10).1 rfl, (claim_C7 exampleParamsX0 10).2 rfl⟩

/-- C8 counterexample: calling `volume_prism` with sides = 2 does not fail
with InvalidGeometry; it returns the numeric value 0. -/
theorem claim_C8_counterexample : volume_prism 2 1 1 = 0 :=
  volume_prism_two 1 1

/-- C8 (amended): `volume_prism` performs no validation of `sides`; for
sides = 2 it returns the numeric formula value, which is 0 for every radius
and height because sin(pi) = 0. -/
theorem claim_C8 (radius height : ℝ) : volume_prism 2 radius height = 0 :=
  volume_prism_two radius height

lemma uniform_mem (g : RandGen σ ℝ)
    (hg : ∀ t, 0 ≤ (g.next t).1 ∧ (g.next t).1 ≤ 1) (a b : ℝ) (hab : a ≤ b)
    (s : σ) : a ≤ (uniform g a b s).1 ∧ (uniform g a b s).1 ≤ b := by
  obtain ⟨h0, h1⟩ := hg s
  unfold uniform
  dsimp only
  constructor <;> nlinarith

/-- C2: `decide_cube` returns `L + 1` where `L` is the last index `i` with
the drawn value strictly greater than `cum_sums[i]`, and 0 when there is no
such index; the boundary tie-break is strict, so a draw exactly equal to a
cumulative boundary falls into the next species. -/
theorem claim_C2 (n_B n_A : ℤ) (number_fractions cum_sums : List ℚ) (u : ℚ)
    (hlen : number_fractions.length = cum_sums.length)
    (hn : 1 ≤ cum_sums.length) (hu0 : 0 ≤ u) (hu1 : u ≤ 1) :
    ((∀ i < number_fractions.length, ¬ cum_sums.getD i 0 < u) →
      decide_cube n_B n_A number_fractions cum_sums u = 0) ∧
    (∀ k < number_fractions.length, cum_sums.getD k 0 < u →
      (∀ j < number_fractions.length, k < j → ¬ cum_sums.getD j 0 < u) →
      decide_cube n_B n_A number_fractions cum_sums u = k + 1) := by
  constructor
  · intro h
    unfold decide_cube
    rw [lastHit_of_none u cum_sums number_fractions.length h]
    norm_num
  · intro k hk hhit hafter
    unfold decide_cube
    rw [lastHit_of_last u cum_sums number_fractions.length k hk hhit hafter]

/-- C2 witness: the theorem applied to the two-species cumulative sums
`[1/2, 1]` with a draw of 3/4, which selects species index 1. -/
theorem claim_C2_witness :
    decide_cube 0 0 ([1 / 2, 1 / 2] : List ℚ) [1 / 2, 1] (3 / 4) = 1 := by
  have h := (claim_C2 0 0 ([1 / 2, 1 / 2] : List ℚ) [1 / 2, 1] (3 / 4) (by decide)
    (by decide) (by norm_num) (by norm_num)).2 0 (by decide) (by norm_num)
    (by
      intro j hj hkj
      have hj2 : j < 2 := by simpa using hj
      interval_cases j <;> norm_num at hkj ⊢)
  simpa using h

/-- C10: whenever the last cumulative sum is at least the drawn value, the
result of `decide_cube` lies in `{0, ..., n - 1}`, so indexing the radii,
heights and color arrays with it is in bounds. -/
theorem claim_C10 (n_B n_A : ℤ) (number_fractions cum_sums : List ℚ) (u : ℚ)
    (hlen : number_fractions.length = cum_sums.length)
    (hn : 1 ≤ cum_sums.length) (hu0 : 0 ≤ u) (hu1 : u ≤ 1)
    (hlast : u ≤ cum_sums.getD (cum_sums.length - 1) 0) :
    0 ≤ decide_cube n_B n_A number_fractions cum_sums u ∧
    decide_cube n_B n_A number_fractions cum_sums u < cum_sums.length := by
  unfold decide_cube
  constructor
  · have h := lastHit_ge u cum_sums number_fractions.length
    omega
  · rw [hlen]
    have hm : cum_sums.length - 1 + 1 = cum_sums.length :=
      Nat.succ_pred_eq_of_pos hn
    have h1 : lastHit u cum_sums cum_sums.length =
        lastHit u cum_sums (cum_sums.length - 1) := by
      conv_lhs => rw [← hm]
      rw [lastHit_succ, if_neg (not_lt.mpr hlast)]
    have h2 := lastHit_lt u cum_sums (cum_sums.length - 1)
    rw [h1]
    omega

/-- C10 witness: the theorem applied to the cumulative sums `[1/2, 1]` with
a draw of 3/4. -/
theorem claim_C10_witness :
    0 ≤ decide_cube 0 0 ([1 / 2, 1 / 2] : List ℚ) [1 / 2, 1] (3 / 4) ∧
    decide_cube 0 0 ([1 / 2, 1 / 2] : List ℚ) [1 / 2, 1] (3 / 4) < 2 := by
  have h := claim_C10 0 0 ([1 / 2, 1 / 2] : List ℚ) [1 / 2, 1] (3 / 4) (by decide)
    (by decide) (by norm_num) (by norm_num) (by norm_num)
  simpa using h

/-- C3: the sampling run is a deterministic function of the seed, the
composition and the number of requested draws: two runs with the same seed,
the same fractions/cumulative sums and the same total slot count produce
identical outputs, and with equal grid dimensions also identical per-slot
species assignments. -/
theorem claim_C3 {σ : Type} (g : RandGen σ ℝ) (p₁ p₂ : Params ℝ)
    (hseed : p₁.seed = p₂.seed)
    (hfr : normalized_number_fractions p₁ = normalized_number_fractions p₂)
    (hcs : cum_sums p₁ = cum_sums p₂)
    (hcount : numCubesTotal p₁ = numCubesTotal p₂) :
    mainRun g p₁ = mainRun g p₂ ∧
    (p₁.num_cubes_x = p₂.num_cubes_x → p₁.num_cubes_y = p₂.num_cubes_y →
      p₁.num_cubes_z = p₂.num_cubes_z →
      (gridCells p₁.num_cubes_x p₁.num_cubes_y p₁.num_cubes_z).zip
          ((mainRun g p₁).1.map SlotOut.species) =
        (gridCells p₂.num_cubes_x p₂.num_cubes_y p₂.num_cubes_z).zip
          ((mainRun g p₂).1.map SlotOut.species)) := by
  have h1 : mainRun g p₁ = mainRun g p₂ := by
    unfold mainRun
    rw [hseed, hfr, hcs]
    refine placeLoop_eq_of_length g _ _ _ _ ?_ 0 0 _
    rw [gridCells_length, gridCells_length]
    exact hcount
  exact ⟨h1, fun hx hy hz => by rw [h1, hx, hy, hz]⟩

/-- C3 witness: the theorem applied twice to the same parameter set and the
constant-draw source. -/
theorem claim_C3_witness :
    mainRun halfGen exampleParams = mainRun halfGen exampleParams ∧
    (exampleParams.num_cubes_x = exampleParams.num_cubes_x →
      exampleParams.num_cubes_y = exampleParams.num_cubes_y →
      exampleParams.num_cubes_z = exampleParams.num_cubes_z →
      (gridCells exampleParams.num_cubes_x exampleParams.num_cubes_y
          exampleParams.num_cubes_z).zip
          ((mainRun halfGen exampleParams).1.map SlotOut.species) =
        (gridCells exampleParams.num_cubes_x exampleParams.num_cubes_y
          exampleParams.num_cubes_z).zip
          ((mainRun halfGen exampleParams).1.map SlotOut.species)) :=
  claim_C3 halfGen exampleParams exampleParams rfl rfl rfl rfl

/-- C4: for valid parameters the normalized `number_fractions` of `main` sum
to 1 within 1e-9 with all entries nonnegative, and `cum_sums` is monotone
non-decreasing in the same order with last element exactly 1. -/
theorem claim_C4 (p : Params ℝ)
    (hρA : 0 < p.density_A) (hρB : 0 < p.density_B)
    (hrA : 0 < p.r_A) (hrB : 0 < p.r_B)
    (hhA : 0 < p.thickness_A) (hhB : 0 < p.thickness_B)
    (hs : 3 ≤ p.num_sides)
    (hx0 : 0 < p.mass_fraction_B) (hx1 : p.mass_fraction_B < 1)
    (hnx : 1 ≤ p.num_cubes_x) (hny : 1 ≤ p.num_cubes_y)
    (hnz : 1 ≤ p.num_cubes_z) :
    |(normalized_number_fractions p).sum - 1| ≤ 1 / 1000000000 ∧
    (∀ v ∈ normalized_number_fractions p, 0 ≤ v) ∧
    List.Chain' (· ≤ ·) (cum_sums p) ∧
    (cum_sums p).getLast? = some 1 := by
  have hα := packAlpha_pos hρA hρB hrA hrB hhA hhB hs hx0 hx1
  have hT : 1 ≤ numCubesTotal p := by
    have := Nat.mul_pos (Nat.mul_pos hnx hny) hnz
    unfold numCubesTotal
    omega
  have h0f := number_fraction_B_nonneg hα hT
  have hf1 := number_fraction_B_le_one hα hT
  rw [normalized_number_fractions_eq, cum_sums_eq]
  refine ⟨?_, ?_, ?_, ?_⟩
  · rw [show ([1 - number_fraction_B p, number_fraction_B p] : List ℝ).sum = 1 by
      simp]
    norm_num
  · intro v hv
    rcases List.mem_cons.mp hv with rfl | hv
    · linarith
    · rcases List.mem_singleton.mp hv with rfl
      exact h0f
  · rw [List.chain'_cons]
    exact ⟨by linarith, List.chain'_singleton 1⟩
  · rfl

/-- C4 witness: the theorem applied to the identical-species parameter set
over a 1 x 1 x 10 grid. -/
theorem claim_C4_witness :
    |(normalized_number_fractions exampleParams).sum - 1| ≤ 1 / 1000000000 ∧
    (∀ v ∈ normalized_number_fractions exampleParams, 0 ≤ v) ∧
    List.Chain' (· ≤ ·) (cum_sums exampleParams) ∧
    (cum_sums exampleParams).getLast? = some 1 :=
  claim_C4 exampleParams (by norm_num [exampleParams]) (by norm_num [exampleParams])
    (by norm_num [exampleParams]) (by norm_num [exampleParams])
    (by norm_num [exampleParams]) (by norm_num [exampleParams])
    (by norm_num [exampleParams]) (by norm_num [exampleParams])
    (by norm_num [exampleParams]) (by norm_num [exampleParams])
    (by norm_num [exampleParams]) (by norm_num [exampleParams])

/-- C5: after the placement loop of `main` completes, the running counts of
generated B and A particles sum exactly to `num_cubes_x * num_cubes_y *
num_cubes_z`; exactly one species draw is made per cell (the output has one
entry per cell); and the visit order is the fixed nested order with x
outermost and z innermost (lexicographically sorted, covering exactly the
index box). -/
theorem claim_C5 {σ : Type} (g : RandGen σ ℝ) (p : Params ℝ) :
    (mainRun g p).2.1 + (mainRun g p).2.2.1 =
      ((p.num_cubes_x * p.num_cubes_y * p.num_cubes_z : ℕ) : ℤ) ∧
    (mainRun g p).1.length = p.num_cubes_x * p.num_cubes_y * p.num_cubes_z ∧
    (gridCells p.num_cubes_x p.num_cubes_y p.num_cubes_z).Pairwise lexLt ∧
    (∀ c, c ∈ gridCells p.num_cubes_x p.num_cubes_y p.num_cubes_z ↔
      c.1 < p.num_cubes_x ∧ c.2.1 < p.num_cubes_y ∧ c.2.2 < p.num_cubes_z) := by
  refine ⟨?_, ?_, gridCells_pairwise _ _ _, fun c => gridCells_mem _ _ _ c⟩
  · unfold mainRun
    rw [placeLoop_counts, gridCells_length]
    ring
  · unfold mainRun
    rw [placeLoop_length, gridCells_length]

/-- C9 counterexample: the upper bound of the rotation draws in `main` is the
literal 6.283185, which is not exactly 2 * pi. -/
theorem claim_C9_counterexample : (rotationBound : ℝ) ≠ 2 * Real.pi := by
  intro h
  have hq : Real.pi = ((6283185 / 2000000 : ℚ) : ℝ) := by
    push_cast
    unfold rotationBound at h
    linarith
  exact irrational_pi ⟨6283185 / 2000000, hq.symm⟩

/-- C9 (amended): after the species draw, the rotation assigned to the placed
body consists of three successive independent `uniform(0, 6.283185)` draws —
the literal 6.283185 approximates but is not exactly 2 * pi — and each
component lies in `[0, 6.283185]` whenever the raw source draws lie in
`[0, 1]`. -/
theorem claim_C9 {σ : Type} (g : RandGen σ ℝ) (fracs cums : List ℝ)
    (nB nA : ℤ) (s : σ)
    (hg : ∀ t, 0 ≤ (g.next t).1 ∧ (g.next t).1 ≤ 1) :
    rotationsSpec g fracs cums nB nA s := by
  have hb : (0 : ℝ) ≤ rotationBound := by
    unfold rotationBound
    norm_num
  exact ⟨rfl, rfl, rfl, rfl,
    uniform_mem g hg 0 rotationBound hb _,
    uniform_mem g hg 0 rotationBound hb _,
    uniform_mem g hg 0 rotationBound hb _⟩

/-- C9 witness: the amended theorem applied to the constant-draw source and
the two-species composition. -/
theorem claim_C9_witness :
    rotationsSpec halfGen [1 / 2, 1 / 2] [1 / 2, 1] 0 0 0 :=
  claim_C9 halfGen [1 / 2, 1 / 2] [1 / 2, 1] 0 0 0
    (by intro t; constructor <;> norm_num [halfGen])

end Packgen
